import Mathlib

/-!
Verification of the watchlist CLI (`src/watchlist.ts`) against its
natural-language specification.

The program is a thin command dispatcher: each of the five CLI verbs
(`add`, `list`, `toggle`, `remove`, `search`) validates its input and
issues one or two calls against a remote tabular store (a Supabase
table named `watchlist`).  We embed the store as a list of rows and
each command action as a pure function from its arguments and the
current store contents to an outcome, the resulting store contents,
and the trace of remote calls it issued.  The remote store's query
primitives (equality filter, `maybeSingle`, ordering, `ilike` pattern
matching) are embedded as list operations with the semantics the
remote query engine gives them.
-/

namespace Watchlist

/-- A row of the remote `watchlist` table: `id` and `created_at` are
assigned by the store on insert, `title` comes from the user, and
`watched` starts `false` and is only ever flipped by `toggle`. -/
structure Item where
  id : Int
  title : String
  watched : Bool
  created_at : Nat
deriving DecidableEq

/-- One remote call, as issued by a command action.  Actions record the
calls they make so that "no remote call is made" claims are statable. -/
inductive RemoteCall where
  | selectByTitle (title : String)
  | insertRow (title : String) (watched : Bool)
  | selectAll
  | selectById (id : Int)
  | updateWatched (id : Int) (watched : Bool)
  | deleteById (id : Int)
  | ilikeTitle (pattern : String)
deriving DecidableEq

/-- The error message the remote store returns when a `maybeSingle`
fetch matches more than one row. -/
def multipleRowsMsg : String := "JSON object requested, multiple rows returned"

/-- The store's `maybeSingle` fetch mode over the rows a filter
matched: `none` when no row matches, the row when exactly one does,
and an error when several do. -/
def maybeSingle (rows : List Item) : Except String (Option Item) :=
  match rows with
  | [] => .ok none
  | [it] => .ok (some it)
  | _ => .error multipleRowsMsg

/-- Result of running one command action: its outcome, the store rows
after the command, and the trace of remote calls issued. -/
structure ActionResult (σ : Type) where
  outcome : σ
  store : List Item
  calls : List RemoteCall
deriving DecidableEq

/-- Validation message of the `min(1)` bound of `watchlistSchema`. -/
def emptyTitleMsg : String := "❌ Title cannot be empty"

/-- Validation message of the `max(250)` bound of `watchlistSchema`. -/
def longTitleMsg : String := "❌ Title is too long"

/-- Outcome of the `add` command. -/
inductive AddOutcome where
  | invalidTitle (msg : String)
  | alreadyExists
  | added
  | remoteError (msg : String)
deriving DecidableEq

/-- The `add <title>` action (watchlist.ts lines 43-66): validate the
title against `watchlistSchema` (`z.string().min(1).max(250)`, checked
on the string as given), look up an existing row by exact title
equality with `maybeSingle`, report "already exists" when one is
found, and otherwise insert a row with `watched = false`.  `newId` and
`ts` are the `id` and `created_at` the remote store assigns to the
inserted row. -/
def addAction (title : String) (store : List Item) (newId : Int) (ts : Nat) :
    ActionResult AddOutcome :=
  if title.length < 1 then ⟨.invalidTitle emptyTitleMsg, store, []⟩
  else if 250 < title.length then ⟨.invalidTitle longTitleMsg, store, []⟩
  else
    match maybeSingle (store.filter (fun it => it.title == title)) with
    | .error e => ⟨.remoteError e, store, [.selectByTitle title]⟩
    | .ok (some _) => ⟨.alreadyExists, store, [.selectByTitle title]⟩
    | .ok none =>
      ⟨.added, store ++ [⟨newId, title, false, ts⟩],
        [.selectByTitle title, .insertRow title false]⟩

/-- Outcome of the `toggle` command; `toggled old` records the watched
value the row had before the update. -/
inductive ToggleOutcome where
  | notFound
  | toggled (oldWatched : Bool)
  | remoteError (msg : String)
deriving DecidableEq

/-- The `toggle <id>` action (watchlist.ts lines 88-105): fetch the
row's current `watched` value by id with `maybeSingle`; report "not
found" when there is none; otherwise update the matching rows, setting
`watched` to the negation of the fetched value.  The CLI passes its
argument through unparsed; the store compares it against the numeric
`id` column, so the argument is embedded as the integer the comparison
uses. -/
def toggleAction (id : Int) (store : List Item) : ActionResult ToggleOutcome :=
  match maybeSingle (store.filter (fun x => x.id == id)) with
  | .error e => ⟨.remoteError e, store, [.selectById id]⟩
  | .ok none => ⟨.notFound, store, [.selectById id]⟩
  | .ok (some it) =>
    ⟨.toggled it.watched,
      store.map (fun x => if x.id == id then { x with watched := !it.watched } else x),
      [.selectById id, .updateWatched id (!it.watched)]⟩

/-- Whitespace as JavaScript's `parseInt` skips it before the digits. -/
def isJsSpace (c : Char) : Bool :=
  c == ' ' || c == '\t' || c == '\n' || c == '\r' || c == '\x0b' || c == '\x0c'

/-- Decimal digit test for `parseInt(·, 10)`. -/
def isDigit10 (c : Char) : Bool := '0' ≤ c && c ≤ '9'

/-- Value of a string of decimal digits. -/
def digitsToNat (ds : List Char) : Nat :=
  ds.foldl (fun a c => a * 10 + (c.toNat - 48)) 0

/-- JavaScript's `parseInt(s, 10)`: skip leading whitespace, read an
optional sign, then the maximal prefix of decimal digits, ignoring the
rest of the string; the result is `NaN` (here `none`) when there is no
digit. -/
def parseInt10 (s : String) : Option Int :=
  let cs := s.data.dropWhile isJsSpace
  let signed : Int × List Char :=
    match cs with
    | '-' :: r => (-1, r)
    | '+' :: r => (1, r)
    | _ => (1, cs)
  let ds := signed.2.takeWhile isDigit10
  if ds.isEmpty then none else some (signed.1 * (digitsToNat ds : Int))

/-- Outcome of the `remove` command. -/
inductive RemoveOutcome where
  | invalidId
  | notFound
  | removed
  | remoteError (msg : String)
deriving DecidableEq

/-- The `remove <id>` action (watchlist.ts lines 107-134): parse the
argument with `parseInt(id, 10)` and stop with the invalid-id message
when it is `NaN`; existence-check the parsed id with `maybeSingle`;
report "not found" when no row matches; otherwise delete the matching
rows. -/
def removeAction (idArg : String) (store : List Item) : ActionResult RemoveOutcome :=
  match parseInt10 idArg with
  | none => ⟨.invalidId, store, []⟩
  | some n =>
    match maybeSingle (store.filter (fun it => it.id == n)) with
    | .error e => ⟨.remoteError e, store, [.selectById n]⟩
    | .ok none => ⟨.notFound, store, [.selectById n]⟩
    | .ok (some _) =>
      ⟨.removed, store.filter (fun it => !(it.id == n)),
        [.selectById n, .deleteById n]⟩

/-- The ordering `list` requests from the store:
`order("created_at", \x7b ascending: false \x7d)`, most recent first. -/
def createdDesc (a b : Item) : Prop := b.created_at ≤ a.created_at

instance : DecidableRel createdDesc := fun a b => Nat.decLe b.created_at a.created_at

instance : IsTotal Item createdDesc := ⟨fun a b => Nat.le_total b.created_at a.created_at⟩

instance : IsTrans Item createdDesc := ⟨fun _ _ _ h1 h2 => le_trans h2 h1⟩

/-- The store's `order by created_at descending` applied to the table
rows: a sort by the `createdDesc` relation. -/
def orderByCreatedDesc (store : List Item) : List Item := store.insertionSort createdDesc

/-- Outcome of the `list` command. -/
inductive ListOutcome where
  | empty
  | listed (rows : List Item)
deriving DecidableEq

/-- The `list` action (watchlist.ts lines 68-86): fetch all rows
ordered by `created_at` descending; report the empty-watchlist message
when the result has no rows, and the rows otherwise. -/
def listAction (store : List Item) : ActionResult ListOutcome :=
  let rows := orderByCreatedDesc store
  if rows.isEmpty then ⟨.empty, store, [.selectAll]⟩
  else ⟨.listed rows, store, [.selectAll]⟩

/-- The empty-watchlist message of `list`. -/
def emptyWatchlistMsg : String := "📜 Your watchlist is empty. Start adding movies! 🍿"

/-- The header line `list` prints before its entries. -/
def listHeaderMsg : String := "🎥 Your Watchlist:"

/-- One printed `list` entry: id, title and the watched marker. -/
def renderEntry (it : Item) : String :=
  " 🎞️  " ++ toString it.id ++ " | " ++ it.title ++ " - " ++
    (if it.watched then "✔ Watched" else "❌ Unwatched")

/-- The lines `list` prints for an outcome. -/
def listLines : ListOutcome → List String
  | .empty => [emptyWatchlistMsg]
  | .listed rows => listHeaderMsg :: rows.map renderEntry

/-- Does `f` hold of some suffix of the list?  Helper for the `%`
wildcard of the store's pattern matching. -/
def anySuffix (f : List Char → Bool) : List Char → Bool
  | [] => f []
  | c :: s => f (c :: s) || anySuffix f s

/-- The remote store's `ilike` pattern matching over the pattern and
candidate, both as character lists: `%` matches any sequence of
characters, `_` matches exactly one character, and any other pattern
character matches a single character case-insensitively. -/
def likeMatch : List Char → List Char → Bool
  | [], s => s.isEmpty
  | p :: ps, s =>
    if p = '%' then anySuffix (fun t => likeMatch ps t) s
    else
      match s with
      | [] => false
      | c :: s' => (p == '_' || p.toLower == c.toLower) && likeMatch ps s'

/-- The store's `ilike` filter predicate on strings. -/
def ilike (pattern s : String) : Bool := likeMatch pattern.data s.data

/-- The rows of the store whose title matches an `ilike` pattern. -/
def ilikeFilter (pattern : String) (store : List Item) : List Item :=
  store.filter (fun it => ilike pattern it.title)

/-- Outcome of the `search` command. -/
inductive SearchOutcome where
  | noMatches
  | found (rows : List Item)
deriving DecidableEq

/-- The `search <query>` action (watchlist.ts lines 136-154): fetch the
rows whose title matches `ilike` against the pattern `%query%`, the
raw query interpolated unescaped; report "no matches" when none does.
No ordering is applied. -/
def searchAction (query : String) (store : List Item) : ActionResult SearchOutcome :=
  let rows := ilikeFilter ("%" ++ query ++ "%") store
  if rows.isEmpty then ⟨.noMatches, store, [.ilikeTitle ("%" ++ query ++ "%")]⟩
  else ⟨.found rows, store, [.ilikeTitle ("%" ++ query ++ "%")]⟩

/-- Case-insensitive prefix test between character lists, spelling out
the spec's notion of matching a query against the start of a title. -/
def listPrefixCI : List Char → List Char → Bool
  | [], _ => true
  | _ :: _, [] => false
  | a :: as, b :: bs => (a.toLower == b.toLower) && listPrefixCI as bs

/-- The spec's "title contains the query as a case-insensitive
substring", stated from the spec's words for comparison with the
store's pattern matching. -/
def containsCI (q s : String) : Bool := anySuffix (listPrefixCI q.data) s.data

/-- The spec's "length after trimming": the length of the title with
leading and trailing whitespace removed, stated from the spec's words
(the code itself never trims). -/
def trimmedLen (s : String) : Nat :=
  ((s.data.dropWhile Char.isWhitespace).reverse.dropWhile Char.isWhitespace).length

/-- C1: for a title already present exactly once (exact match), `add`
reports "already exists", leaves the store unchanged and inserts
nothing; for a title not present at all, `add` inserts exactly one new
row with `watched = false`. -/
theorem add_no_duplicate_insert_new (title : String) (store : List Item)
    (newId : Int) (ts : Nat) (hmin : 1 ≤ title.length) (hmax : title.length ≤ 250) :
    ((store.filter (fun it => it.title == title)).length = 1 →
      addAction title store newId ts = ⟨.alreadyExists, store, [.selectByTitle title]⟩) ∧
    (store.filter (fun it => it.title == title) = [] →
      addAction title store newId ts =
        ⟨.added, store ++ [⟨newId, title, false, ts⟩],
          [.selectByTitle title, .insertRow title false]⟩) := by
  constructor
  · intro h
    obtain ⟨it, hit⟩ := List.length_eq_one.mp h
    simp only [addAction]
    rw [if_neg (by omega), if_neg (by omega), hit]
    rfl
  · intro h
    simp only [addAction]
    rw [if_neg (by omega), if_neg (by omega), h]
    rfl

/-- Witness for C1 at concrete inputs: adding "Dune" over a store that
already holds it, and over the empty store. -/
theorem add_no_duplicate_insert_new_witness :
    addAction "Dune" [⟨1, "Dune", false, 0⟩] 2 5 =
      ⟨.alreadyExists, [⟨1, "Dune", false, 0⟩], [.selectByTitle "Dune"]⟩ ∧
    addAction "Dune" [] 1 0 =
      ⟨.added, [⟨1, "Dune", false, 0⟩], [.selectByTitle "Dune", .insertRow "Dune" false]⟩ :=
  ⟨(add_no_duplicate_insert_new "Dune" [⟨1, "Dune", false, 0⟩] 2 5 (by decide)
      (by decide)).1 (by decide),
   (add_no_duplicate_insert_new "Dune" [] 1 0 (by decide) (by decide)).2 (by decide)⟩

/-- C2 counterexample: the title " " has trimmed length 0, yet `add`
does not fail validation — it issues the existence-check remote call
and inserts the row.  The schema bounds the raw string length, not the
trimmed length. -/
theorem add_trimmed_validation_cex :
    trimmedLen " " = 0 ∧ (addAction " " [] 1 0).outcome = .added ∧
      (addAction " " [] 1 0).calls ≠ [] := by decide

/-- C2 amended: for every title whose raw (untrimmed) length is 0 or
greater than 250, `add` fails with the validation message, leaves the
store unchanged and makes no remote call. -/
theorem add_rejects_bad_length (title : String) (store : List Item)
    (newId : Int) (ts : Nat) (h : title.length = 0 ∨ 250 < title.length) :
    ∃ m, addAction title store newId ts = ⟨.invalidTitle m, store, []⟩ := by
  rcases h with h | h
  · refine ⟨emptyTitleMsg, ?_⟩
    simp only [addAction]
    rw [if_pos (by omega)]
  · refine ⟨longTitleMsg, ?_⟩
    simp only [addAction]
    rw [if_neg (by omega), if_pos (by omega)]

/-- Witness for the amended C2 at the empty title. -/
theorem add_rejects_bad_length_witness :
    ∃ m, addAction "" [] 1 0 = ⟨.invalidTitle m, [], []⟩ :=
  add_rejects_bad_length "" [] 1 0 (Or.inl (by decide))

/-- C4: toggling an id matched by no row reports "not found", leaves
the store unchanged, and issues only the lookup call — no update. -/
theorem toggle_missing_id_not_found (id : Int) (store : List Item)
    (h : store.filter (fun x => x.id == id) = []) :
    toggleAction id store = ⟨.notFound, store, [.selectById id]⟩ := by
  simp only [toggleAction, h]
  rfl

/-- Witness for C4: toggling id 5 over the empty store. -/
theorem toggle_missing_id_not_found_witness :
    toggleAction 5 [] = ⟨.notFound, [], [.selectById 5]⟩ :=
  toggle_missing_id_not_found 5 [] (by decide)

/-- C5: an argument that `parseInt` cannot parse makes `remove` fail
with the invalid-id outcome and no remote call; a parsed id matched by
no row makes it report "not found" after only the lookup call, with no
delete. -/
theorem remove_validates_and_reports_not_found (idArg : String) (store : List Item) :
    (parseInt10 idArg = none → removeAction idArg store = ⟨.invalidId, store, []⟩) ∧
    (∀ n : Int, parseInt10 idArg = some n → store.filter (fun it => it.id == n) = [] →
      removeAction idArg store = ⟨.notFound, store, [.selectById n]⟩) := by
  constructor
  · intro h
    simp only [removeAction, h]
  · intro n hn hf
    simp only [removeAction, hn, hf]
    rfl

/-- Witness for C5: removing "abc" (unparsable) and "5" (absent). -/
theorem remove_validates_and_reports_not_found_witness :
    removeAction "abc" [] = ⟨.invalidId, [], []⟩ ∧
    removeAction "5" [] = ⟨.notFound, [], [.selectById 5]⟩ :=
  ⟨(remove_validates_and_reports_not_found "abc" []).1 (by decide),
   (remove_validates_and_reports_not_found "5" []).2 5 (by decide) (by decide)⟩

/-- C3: on an id matched by exactly one row, `toggle` writes exactly
the negation of that row's current `watched` value (touching no other
field and no other row), and a second `toggle` on the same id returns
the store to its original state. -/
theorem toggle_flips_exactly (id : Int) (store : List Item) (it : Item)
    (h : store.filter (fun x => x.id == id) = [it]) :
    toggleAction id store =
      ⟨.toggled it.watched,
        store.map (fun x => if x.id == id then { x with watched := !it.watched } else x),
        [.selectById id, .updateWatched id (!it.watched)]⟩ ∧
    (toggleAction id (toggleAction id store).store).store = store := by
  have hid : (it.id == id) = true := by
    have hmem : it ∈ store.filter (fun x => x.id == id) := by
      rw [h]; exact List.mem_singleton_self it
    exact (List.mem_filter.mp hmem).2
  have h1 : toggleAction id store =
      ⟨.toggled it.watched,
        store.map (fun x => if x.id == id then { x with watched := !it.watched } else x),
        [.selectById id, .updateWatched id (!it.watched)]⟩ := by
    simp only [toggleAction, h]
    rfl
  refine ⟨h1, ?_⟩
  rw [h1]
  have hfid : ∀ x : Item,
      ((fun x => if x.id == id then { x with watched := !it.watched } else x) x).id = x.id := by
    intro x
    by_cases hx : (x.id == id) = true <;> simp [hx]
  have hfilter :
      (store.map (fun x => if x.id == id then { x with watched := !it.watched } else x)).filter
          (fun x => x.id == id) =
        [{ it with watched := !it.watched }] := by
    rw [List.filter_map]
    have hcongr : store.filter
          ((fun x => x.id == id) ∘ (fun x => if x.id == id then { x with watched := !it.watched } else x)) =
        store.filter (fun x => x.id == id) := by
      apply List.filter_congr
      intro x _
      simp only [Function.comp]
      rw [hfid x]
    rw [hcongr, h]
    simp only [List.map]
    rw [if_pos hid]
  simp only [toggleAction, hfilter]
  simp only [maybeSingle]
  simp only [List.map_map]
  conv_rhs => rw [← List.map_id store]
  apply List.map_eq_map_iff.mpr
  intro x hx
  by_cases hxid : (x.id == id) = true
  · have hxit : x = it := by
      have hmem : x ∈ store.filter (fun x => x.id == id) := List.mem_filter.mpr ⟨hx, hxid⟩
      rw [h] at hmem
      exact List.mem_singleton.mp hmem
    subst hxit
    simp [Function.comp, hxid]
  · simp [Function.comp, hxid]

/-- Witness for C3: toggling the single row of a concrete store. -/
theorem toggle_flips_exactly_witness :
    toggleAction 1 [⟨1, "Dune", false, 0⟩] =
      ⟨.toggled false, [⟨1, "Dune", true, 0⟩], [.selectById 1, .updateWatched 1 true]⟩ ∧
    (toggleAction 1 (toggleAction 1 [⟨1, "Dune", false, 0⟩]).store).store =
      [⟨1, "Dune", false, 0⟩] :=
  toggle_flips_exactly 1 [⟨1, "Dune", false, 0⟩] ⟨1, "Dune", false, 0⟩ (by decide)

/-- C6: `list` on the empty store reports the empty-watchlist message
rather than an error; on a non-empty store it reports all rows,
ordered by `created_at` descending (the reported rows are a
permutation of the store, sorted most recent first), each rendered
with its id, title and Watched/Unwatched marker. -/
theorem list_all_items_desc (store : List Item) :
    (store = [] → listAction store = ⟨.empty, store, [.selectAll]⟩) ∧
    (store ≠ [] →
      listAction store = ⟨.listed (orderByCreatedDesc store), store, [.selectAll]⟩ ∧
      listLines (.listed (orderByCreatedDesc store)) =
        listHeaderMsg :: (orderByCreatedDesc store).map renderEntry) ∧
    listLines .empty = [emptyWatchlistMsg] ∧
    (orderByCreatedDesc store).Perm store ∧
    List.Sorted createdDesc (orderByCreatedDesc store) := by
  have hperm : (orderByCreatedDesc store).Perm store := List.perm_insertionSort _ _
  refine ⟨?_, ?_, rfl, hperm, List.sorted_insertionSort _ _⟩
  · intro h
    subst h
    rfl
  · intro h
    have hne : orderByCreatedDesc store ≠ [] := by
      intro h0
      apply h
      have hlen := hperm.length_eq
      rw [h0] at hlen
      exact List.eq_nil_of_length_eq_zero hlen.symm
    have hempty : (orderByCreatedDesc store).isEmpty = false := by
      cases h0 : orderByCreatedDesc store with
      | nil => exact absurd h0 hne
      | cons a l => rfl
    refine ⟨?_, rfl⟩
    simp only [listAction]
    rw [hempty]
    rfl

/-- Witness for C6 at a concrete two-row store. -/
theorem list_all_items_desc_witness :
    listAction [⟨1, "Dune", false, 3⟩, ⟨2, "Up", true, 7⟩] =
      ⟨.listed (orderByCreatedDesc [⟨1, "Dune", false, 3⟩, ⟨2, "Up", true, 7⟩]),
        [⟨1, "Dune", false, 3⟩, ⟨2, "Up", true, 7⟩], [.selectAll]⟩ :=
  ((list_all_items_desc [⟨1, "Dune", false, 3⟩, ⟨2, "Up", true, 7⟩]).2.1 (by decide)).1

theorem anySuffix_of_nil (f : List Char → Bool) (hf : f [] = true) :
    ∀ s, anySuffix f s = true
  | [] => by simp [anySuffix, hf]
  | c :: s => by simp [anySuffix, anySuffix_of_nil f hf s]

theorem anySuffix_congr (f g : List Char → Bool) (hfg : ∀ t, f t = g t) :
    ∀ s, anySuffix f s = anySuffix g s
  | [] => by simp [anySuffix, hfg]
  | c :: s => by simp [anySuffix, hfg, anySuffix_congr f g hfg s]

theorem anySuffix_head (f : List Char → Bool) (s : List Char) (h : f s = true) :
    anySuffix f s = true := by
  cases s <;> simp [anySuffix, h]

theorem anySuffix_append_right (f : List Char → Bool) (s₂ : List Char)
    (h : anySuffix f s₂ = true) : ∀ s₁, anySuffix f (s₁ ++ s₂) = true
  | [] => h
  | c :: s₁ => by simp [anySuffix, anySuffix_append_right f s₂ h s₁]

/-- Unfolding equation of `likeMatch` at a leading `%` wildcard. -/
theorem likeMatch_pct (ps s : List Char) :
    likeMatch ('%' :: ps) s = anySuffix (fun t => likeMatch ps t) s := rfl

/-- Unfolding equation of `likeMatch` at a non-`%` pattern head against
a non-empty candidate. -/
theorem likeMatch_lit (p : Char) (ps : List Char) (hp : p ≠ '%') (c : Char)
    (s : List Char) :
    likeMatch (p :: ps) (c :: s) =
      ((p == '_' || p.toLower == c.toLower) && likeMatch ps s) := by
  show (if p = '%' then anySuffix (fun t => likeMatch ps t) (c :: s)
    else match c :: s with
      | [] => false
      | x :: s' => (p == '_' || p.toLower == x.toLower) && likeMatch ps s') = _
  rw [if_neg hp]

/-- A wildcard-free pattern followed by `%` matches exactly the strings
it is a case-insensitive prefix of. -/
theorem likeMatch_literal_pct (q : List Char) :
    (∀ c ∈ q, c ≠ '%' ∧ c ≠ '_') → ∀ s, likeMatch (q ++ ['%']) s = listPrefixCI q s := by
  induction q with
  | nil =>
    intro _ s
    have h1 : likeMatch ([] ++ ['%']) s = anySuffix (fun t => likeMatch [] t) s := by
      simp [likeMatch]
    rw [h1, anySuffix_of_nil (fun t => likeMatch [] t) rfl s]
    rfl
  | cons c q' ih =>
    intro hq s
    have hc := hq c (List.mem_cons_self c q')
    cases s with
    | nil =>
      simp only [List.cons_append, likeMatch]
      rw [if_neg hc.1]
      rfl
    | cons d s' =>
      simp only [List.cons_append, likeMatch]
      rw [if_neg hc.1]
      have hcu : (c == '_') = false := beq_eq_false_iff_ne.mpr hc.2
      rw [hcu, Bool.false_or]
      show (c.toLower == d.toLower && likeMatch (q' ++ ['%']) s') =
        listPrefixCI (c :: q') (d :: s')
      rw [ih (fun x hx => hq x (List.mem_cons_of_mem c hx)) s']
      rfl

/-- The pattern `%q%` with a wildcard-free `q` matches exactly the
strings that contain `q` as a case-insensitive substring. -/
theorem likeMatch_pct_pct (q : List Char) (hq : ∀ c ∈ q, c ≠ '%' ∧ c ≠ '_')
    (s : List Char) :
    likeMatch ('%' :: (q ++ ['%'])) s = anySuffix (listPrefixCI q) s := by
  simp only [likeMatch]
  rw [if_pos trivial]
  exact anySuffix_congr _ _ (likeMatch_literal_pct q hq) s

/-- C7 counterexample: the query "a%b" is not contained in the stored
title "aXb" as a case-insensitive substring, yet `search` returns that
row: the `%` in the query acted as a wildcard, so the operation is not
substring search for every query string. -/
theorem search_ci_substring_cex :
    containsCI "a%b" "aXb" = false ∧
    searchAction "a%b" [⟨1, "aXb", false, 0⟩] =
      ⟨.found [⟨1, "aXb", false, 0⟩], [⟨1, "aXb", false, 0⟩],
        [.ilikeTitle ("%" ++ "a%b" ++ "%")]⟩ := by decide

/-- C7 amended: for every query string free of the pattern
metacharacters `%` and `_`, `search` returns exactly the rows whose
title contains the query as a case-insensitive substring, in store
order with no sort applied, and an empty result is the "no matches"
outcome rather than an error. -/
theorem search_ci_substring (query : String) (store : List Item)
    (hq : ∀ c ∈ query.data, c ≠ '%' ∧ c ≠ '_') :
    ilikeFilter ("%" ++ query ++ "%") store =
      store.filter (fun it => containsCI query it.title) ∧
    searchAction query store =
      if store.filter (fun it => containsCI query it.title) = [] then
        ⟨.noMatches, store, [.ilikeTitle ("%" ++ query ++ "%")]⟩
      else
        ⟨.found (store.filter (fun it => containsCI query it.title)), store,
          [.ilikeTitle ("%" ++ query ++ "%")]⟩ := by
  have hdata : ("%" ++ query ++ "%").data = '%' :: (query.data ++ ['%']) := rfl
  have hfe : ilikeFilter ("%" ++ query ++ "%") store =
      store.filter (fun it => containsCI query it.title) := by
    apply List.filter_congr
    intro it _
    show ilike ("%" ++ query ++ "%") it.title = containsCI query it.title
    unfold ilike containsCI
    rw [hdata]
    exact likeMatch_pct_pct query.data hq it.title.data
  refine ⟨hfe, ?_⟩
  simp only [searchAction]
  rw [hfe]
  by_cases h0 : store.filter (fun it => containsCI query it.title) = []
  · rw [if_pos h0, h0]
    rfl
  · rw [if_neg h0]
    have hempty : (store.filter (fun it => containsCI query it.title)).isEmpty = false := by
      cases hc : store.filter (fun it => containsCI query it.title) with
      | nil => exact absurd hc h0
      | cons a l => rfl
    rw [hempty]
    simp

/-- Witness for the amended C7 at the spec's own example: searching
"batman" over a store holding "The Batman" and "Inception". -/
theorem search_ci_substring_witness :
    ilikeFilter ("%" ++ "batman" ++ "%") [⟨1, "The Batman", false, 0⟩, ⟨2, "Inception", false, 1⟩] =
      ([⟨1, "The Batman", false, 0⟩, ⟨2, "Inception", false, 1⟩] : List Item).filter
        (fun it => containsCI "batman" it.title) :=
  (search_ci_substring "batman" [⟨1, "The Batman", false, 0⟩, ⟨2, "Inception", false, 1⟩]
    (by decide)).1

/-- C9: the pre-insert existence check compares titles with exact,
case-sensitive equality, so two valid titles that differ only in
letter case (equal when lowercased, unequal as strings) are both
inserted: adding the first to an empty store and then the second
leaves both rows in the store. -/
theorem add_duplicate_check_case_sensitive (t1 t2 : String) (hne : t1 ≠ t2)
    (_hci : t1.data.map Char.toLower = t2.data.map Char.toLower)
    (h1 : 1 ≤ t1.length) (h1' : t1.length ≤ 250)
    (h2 : 1 ≤ t2.length) (h2' : t2.length ≤ 250)
    (id1 id2 : Int) (ts1 ts2 : Nat) :
    addAction t1 [] id1 ts1 =
      ⟨.added, [⟨id1, t1, false, ts1⟩], [.selectByTitle t1, .insertRow t1 false]⟩ ∧
    addAction t2 [⟨id1, t1, false, ts1⟩] id2 ts2 =
      ⟨.added, [⟨id1, t1, false, ts1⟩, ⟨id2, t2, false, ts2⟩],
        [.selectByTitle t2, .insertRow t2 false]⟩ := by
  constructor
  · simp only [addAction]
    rw [if_neg (by omega), if_neg (by omega)]
    rfl
  · simp only [addAction]
    rw [if_neg (by omega), if_neg (by omega)]
    have hbeq : (t1 == t2) = false := beq_eq_false_iff_ne.mpr hne
    have hfilter : ([⟨id1, t1, false, ts1⟩] : List Item).filter
        (fun it => it.title == t2) = [] := by
      simp [List.filter, hbeq]
    rw [hfilter]
    rfl

/-- Witness for C9 at the titles "Dune" and "dune". -/
theorem add_duplicate_check_case_sensitive_witness :
    addAction "Dune" [] 1 3 =
      ⟨.added, [⟨1, "Dune", false, 3⟩], [.selectByTitle "Dune", .insertRow "Dune" false]⟩ ∧
    addAction "dune" [⟨1, "Dune", false, 3⟩] 2 9 =
      ⟨.added, [⟨1, "Dune", false, 3⟩, ⟨2, "dune", false, 9⟩],
        [.selectByTitle "dune", .insertRow "dune" false]⟩ :=
  add_duplicate_check_case_sensitive "Dune" "dune" (by decide) (by decide)
    (by decide) (by decide) (by decide) (by decide) 1 2 3 9

/-- C10: the raw query is interpolated unescaped into the `%query%`
pattern, so a `%` in the query matches any character sequence (for
every filler `w`, the query "a%b" matches the stored title "a"+w+"b")
and a `_` matches any single character; the query "a%b" is not matched
literally: it selects the title "aXb", which does not contain it as a
case-insensitive substring. -/
theorem search_query_wildcards_unescaped (w : String) (c : Char) :
    ilikeFilter ("%" ++ "a%b" ++ "%") [⟨1, "a" ++ w ++ "b", false, 0⟩] =
      [⟨1, "a" ++ w ++ "b", false, 0⟩] ∧
    ilikeFilter ("%" ++ "a_b" ++ "%") [⟨1, ⟨['a', c, 'b']⟩, false, 0⟩] =
      [⟨1, ⟨['a', c, 'b']⟩, false, 0⟩] ∧
    containsCI "a%b" "aXb" = false ∧
    searchAction "a%b" [⟨1, "aXb", false, 0⟩] =
      ⟨.found [⟨1, "aXb", false, 0⟩], [⟨1, "aXb", false, 0⟩],
        [.ilikeTitle ("%" ++ "a%b" ++ "%")]⟩ := by
  have hb : anySuffix (fun t => likeMatch ['b', '%'] t) ['b'] = true := by decide
  have hm1 : ilike ("%" ++ "a%b" ++ "%") ("a" ++ w ++ "b") = true := by
    show likeMatch ('%' :: ['a', '%', 'b', '%']) ('a' :: (w.data ++ ['b'])) = true
    rw [likeMatch_pct]
    apply anySuffix_head
    show likeMatch ('a' :: ['%', 'b', '%']) ('a' :: (w.data ++ ['b'])) = true
    rw [likeMatch_lit 'a' _ (by decide), likeMatch_pct,
      anySuffix_append_right _ ['b'] hb w.data]
    decide
  have hm2 : ilike ("%" ++ "a_b" ++ "%") ⟨['a', c, 'b']⟩ = true := by
    show likeMatch ('%' :: ['a', '_', 'b', '%']) ['a', c, 'b'] = true
    rw [likeMatch_pct]
    apply anySuffix_head
    show likeMatch ('a' :: ['_', 'b', '%']) ('a' :: [c, 'b']) = true
    rw [likeMatch_lit 'a' _ (by decide), likeMatch_lit '_' _ (by decide),
      likeMatch_lit 'b' _ (by decide)]
    have hu : ('_' == '_' || '_'.toLower == c.toLower) = true := by
      rw [Bool.or_eq_true]
      exact Or.inl rfl
    rw [hu]
    decide
  refine ⟨?_, ?_, by decide, by decide⟩
  · apply List.filter_eq_self.mpr
    intro a ha
    rw [List.mem_singleton.mp ha]
    exact hm1
  · apply List.filter_eq_self.mpr
    intro a ha
    rw [List.mem_singleton.mp ha]
    exact hm2

/-- What a finished command invocation leaves behind: the printed
lines and the process exit code. -/
structure CommandResult where
  lines : List String
  exitCode : Nat
deriving DecidableEq

/-- The error line the catch block prints: `❌ ` and the error's
message. -/
def errLine (e : String) : String := "❌ " ++ e

/-- The try/catch wrapper around every command's action body: a normal
completion prints its lines; a thrown error is caught at the top of
the command and converted to the user-facing error line.  Both paths
let the process complete normally — exit code 0 either way, with no
distinct code per failure class. -/
def wrapAction (body : Except String (List String)) : CommandResult :=
  match body with
  | .ok ls => ⟨ls, 0⟩
  | .error e => ⟨[errLine e], 0⟩

/-- Success message of `add`. -/
def addedMsg : String := "✅ Successfully added to your watchlist! 🎉"

/-- Duplicate message of `add`. -/
def alreadyMsg : String := "⚠️  Already in your watchlist!"

/-- Not-found message of `toggle` and `remove`. -/
def notFoundMsg : String := "⚠️  Item not found in your watchlist."

/-- Invalid-id message of `remove`. -/
def invalidIdMsg : String := "❌ Invalid ID. Please enter a valid number."

/-- Success message of `remove`. -/
def removedMsg : String := "🗑️  Successfully removed from your watchlist! ❌"

/-- No-match message of `search`. -/
def noMatchMsg : String := "⚠️  No matching movies found."

/-- Header line of `search` results. -/
def searchHeaderMsg : String := "🔍  Search Results:"

/-- Status line of a successful `toggle`, phrased from the old value. -/
def toggledMsg (old : Bool) : String :=
  "🔄 Status updated: " ++
    (if old then "❌ Marked as Unwatched" else "✔ Marked as Watched") ++ " ✅"

/-- One printed `search` entry (the search rendering has two spaces
after the id). -/
def renderSearchEntry (it : Item) : String :=
  " 🎞️  " ++ toString it.id ++ "  | " ++ it.title ++ " - " ++
    (if it.watched then "✔ Watched" else "❌ Unwatched")

/-- The `add` body as the try sees it: validation failures and remote
errors are thrown (`error`), other outcomes print and return. -/
def addThrown : AddOutcome → Except String (List String)
  | .invalidTitle m => .error m
  | .remoteError m => .error m
  | .alreadyExists => .ok [alreadyMsg]
  | .added => .ok [addedMsg]

/-- The `list` body: outcomes only print, remote errors are injected
as faults by the runner. -/
def listThrown : ListOutcome → Except String (List String)
  | o => .ok (listLines o)

/-- The `toggle` body: remote errors are thrown, other outcomes print. -/
def toggleThrown : ToggleOutcome → Except String (List String)
  | .notFound => .ok [notFoundMsg]
  | .toggled old => .ok [toggledMsg old]
  | .remoteError m => .error m

/-- The `remove` body: the invalid-id path prints and returns (it is
not a throw in the code), remote errors are thrown. -/
def removeThrown : RemoveOutcome → Except String (List String)
  | .invalidId => .ok [invalidIdMsg]
  | .notFound => .ok [notFoundMsg]
  | .removed => .ok [removedMsg]
  | .remoteError m => .error m

/-- The `search` body: outcomes only print. -/
def searchThrown : SearchOutcome → Except String (List String)
  | .noMatches => .ok [noMatchMsg]
  | .found rows => .ok (searchHeaderMsg :: rows.map renderSearchEntry)

/-- One `add` invocation: `fault = some e` injects a remote failure
(the store rejects the command's call with message `e`), `none` lets
the store behave per its semantics. -/
def runAdd (title : String) (store : List Item) (newId : Int) (ts : Nat)
    (fault : Option String) : CommandResult :=
  wrapAction (match fault with
    | some e => .error e
    | none => addThrown (addAction title store newId ts).outcome)

/-- One `list` invocation with an optional injected remote failure. -/
def runList (store : List Item) (fault : Option String) : CommandResult :=
  wrapAction (match fault with
    | some e => .error e
    | none => listThrown (listAction store).outcome)

/-- One `toggle` invocation with an optional injected remote failure. -/
def runToggle (id : Int) (store : List Item) (fault : Option String) : CommandResult :=
  wrapAction (match fault with
    | some e => .error e
    | none => toggleThrown (toggleAction id store).outcome)

/-- One `remove` invocation with an optional injected remote failure.
An unparsable id never reaches the remote, so the fault applies only
past validation, as in the code. -/
def runRemove (idArg : String) (store : List Item) (fault : Option String) : CommandResult :=
  match parseInt10 idArg with
  | none => wrapAction (removeThrown .invalidId)
  | some _ =>
    wrapAction (match fault with
      | some e => .error e
      | none => removeThrown (removeAction idArg store).outcome)

/-- One `search` invocation with an optional injected remote failure. -/
def runSearch (query : String) (store : List Item) (fault : Option String) : CommandResult :=
  wrapAction (match fault with
    | some e => .error e
    | none => searchThrown (searchAction query store).outcome)

theorem wrapAction_exitCode (b : Except String (List String)) :
    (wrapAction b).exitCode = 0 := by
  cases b <;> rfl

theorem wrapAction_lines_ne_nil (b : Except String (List String))
    (h : ∀ ls, b = .ok ls → ls ≠ []) : (wrapAction b).lines ≠ [] := by
  cases b with
  | ok ls => exact h ls rfl
  | error e => simp [wrapAction]

theorem addThrown_ok_ne_nil (o : AddOutcome) :
    ∀ ls, addThrown o = .ok ls → ls ≠ [] := by
  cases o <;> intro ls h <;> simp [addThrown] at h <;> simp [← h]

theorem listThrown_ok_ne_nil (o : ListOutcome) :
    ∀ ls, listThrown o = .ok ls → ls ≠ [] := by
  cases o <;> intro ls h <;> simp [listThrown, listLines] at h <;> simp [← h]

theorem toggleThrown_ok_ne_nil (o : ToggleOutcome) :
    ∀ ls, toggleThrown o = .ok ls → ls ≠ [] := by
  cases o <;> intro ls h <;> simp [toggleThrown] at h <;> simp [← h]

theorem removeThrown_ok_ne_nil (o : RemoveOutcome) :
    ∀ ls, removeThrown o = .ok ls → ls ≠ [] := by
  cases o <;> intro ls h <;> simp [removeThrown] at h <;> simp [← h]

theorem searchThrown_ok_ne_nil (o : SearchOutcome) :
    ∀ ls, searchThrown o = .ok ls → ls ≠ [] := by
  cases o <;> intro ls h <;> simp [searchThrown] at h <;> simp [← h]

/-- C8: every command invocation, whatever its inputs and whether or
not the remote store throws an error into it, completes: the caught
error becomes the user-facing error line, something is always printed,
and the process exit code is 0 on every path — no distinct non-zero
exit code per failure class. -/
theorem commands_catch_all_errors (title idArg query : String) (store : List Item)
    (newId id : Int) (ts : Nat) (fault : Option String) :
    ((runAdd title store newId ts fault).exitCode = 0 ∧
      (runAdd title store newId ts fault).lines ≠ []) ∧
    ((runList store fault).exitCode = 0 ∧ (runList store fault).lines ≠ []) ∧
    ((runToggle id store fault).exitCode = 0 ∧ (runToggle id store fault).lines ≠ []) ∧
    ((runRemove idArg store fault).exitCode = 0 ∧ (runRemove idArg store fault).lines ≠ []) ∧
    ((runSearch query store fault).exitCode = 0 ∧ (runSearch query store fault).lines ≠ []) ∧
    (∀ e, wrapAction (.error e) = ⟨[errLine e], 0⟩) := by
  refine ⟨⟨?_, ?_⟩, ⟨?_, ?_⟩, ⟨?_, ?_⟩, ⟨?_, ?_⟩, ⟨?_, ?_⟩, fun e => rfl⟩
  · unfold runAdd
    exact wrapAction_exitCode _
  · unfold runAdd
    apply wrapAction_lines_ne_nil
    cases fault with
    | some e => intro ls h; simp at h
    | none => exact addThrown_ok_ne_nil _
  · unfold runList
    exact wrapAction_exitCode _
  · unfold runList
    apply wrapAction_lines_ne_nil
    cases fault with
    | some e => intro ls h; simp at h
    | none => exact listThrown_ok_ne_nil _
  · unfold runToggle
    exact wrapAction_exitCode _
  · unfold runToggle
    apply wrapAction_lines_ne_nil
    cases fault with
    | some e => intro ls h; simp at h
    | none => exact toggleThrown_ok_ne_nil _
  · unfold runRemove
    cases parseInt10 idArg <;> exact wrapAction_exitCode _
  · unfold runRemove
    cases parseInt10 idArg with
    | none =>
      apply wrapAction_lines_ne_nil
      exact removeThrown_ok_ne_nil .invalidId
    | some n =>
      apply wrapAction_lines_ne_nil
      cases fault with
      | some e => intro ls h; simp at h
      | none => exact removeThrown_ok_ne_nil _
  · unfold runSearch
    exact wrapAction_exitCode _
  · unfold runSearch
    apply wrapAction_lines_ne_nil
    cases fault with
    | some e => intro ls h; simp at h
    | none => exact searchThrown_ok_ne_nil _

end Watchlist
